import Mathlib

/-!
# Verification of the `filly` file-sync helper

Shallow embedding of the core of `filly` (path resolution, format
dispatch, remote-sync orchestration) from `src/filly/filly.py` and
`src/filly/s3.py`, together with theorems settling the specification's
claims about it.

Python exceptions are embedded as the `PyErr` type; filesystem and
remote side effects are embedded as explicit `Effect` traces; attributes
that may be unset on a Python instance are embedded as `Option` fields.
-/

set_option autoImplicit false

namespace Filly

/-- The Python exceptions the embedded code can raise.  `typeError`
covers both `TypeError('File type ... not supported')` raised by
`_read_or_write` and the `TypeError` Python raises on a call with the
wrong number of positional arguments; `nameError` is the `NameError`
raised when an undefined name (`hdfs_dir`) is evaluated;
`attributeError` is the `AttributeError` raised on reading an instance
attribute that was never assigned. -/
inductive PyErr where
  | valueError
  | typeError
  | nameError
  | attributeError
  deriving Repr, DecidableEq

/-! ## Path-string helpers (`os.path` / `pathlib` as used by the code) -/

/-- `posixpath.split`: the head is everything up to and including the
last slash (then stripped of trailing slashes unless it is all slashes),
the tail is everything after the last slash. -/
def pySplit (p : String) : String × String :=
  let cs := p.toList.reverse
  let tailRev := cs.takeWhile (fun c => c ≠ '/')
  let headRev := cs.dropWhile (fun c => c ≠ '/')
  let head := headRev.reverse
  let headStripped :=
    if head.all (fun c => c = '/') then head
    else (head.reverse.dropWhile (fun c => c = '/')).reverse
  (String.mk headStripped, String.mk tailRev.reverse)

/-- `os.path.dirname`. -/
def dirname (p : String) : String := (pySplit p).1

/-- `os.path.basename`. -/
def basename (p : String) : String := (pySplit p).2

/-- Whether a string starts with a slash. -/
def headIsSlash (s : String) : Bool :=
  match s.toList with
  | c :: _ => c = '/'
  | [] => false

/-- Whether a string ends with a slash. -/
def lastIsSlash (s : String) : Bool :=
  match s.toList.getLast? with
  | some c => c = '/'
  | none => false

/-- `os.path.join` for two components (posix semantics): an absolute
second component replaces the first; otherwise a slash is inserted
unless the first component is empty or already ends with one. -/
def joinPath (a b : String) : String :=
  if headIsSlash b then b
  else if a = "" ∨ lastIsSlash a then a ++ b
  else a ++ "/" ++ b

/-- Index of the last occurrence of `c`, if any. -/
def lastIdxOf (c : Char) : List Char → Option Nat
  | [] => none
  | x :: xs =>
    match lastIdxOf c xs with
    | some i => some (i + 1)
    | none => if x = c then some 0 else none

/-- `pathlib.PurePath(name).suffix`: the substring from the last dot on,
provided that dot is neither the first nor the last character;
otherwise the empty string. -/
def pySuffix (name : String) : String :=
  let cs := name.toList
  match lastIdxOf '.' cs with
  | none => ""
  | some i => if 0 < i ∧ i + 1 < cs.length then String.mk (cs.drop i) else ""

/-! ## The `Filly` session object -/

/-- The mutable attributes of a `Filly` instance.  `filepath`,
`filename` and `fullpath` start out unassigned (`none`) and are only
assigned by `__set_path`; `bucket` is the bucket of the `S3` client
attribute, present exactly when the constructor built one. -/
structure FillyState where
  remote : Option String
  bucket : Option String
  filepath : Option String
  filename : Option String
  fullpath : Option String
  deriving Repr, DecidableEq

/-- `Filly.__init__(remote, bucket_name)` (filly.py lines 35-67):
rejects remotes outside `['s3', 'hdfs', None]` with `ValueError`;
for `remote='s3'` requires a bucket name that is neither `None` nor
`''`, else `ValueError`. -/
def init (remote bucket_name : Option String) : Except PyErr FillyState :=
  if remote ≠ some "s3" ∧ remote ≠ some "hdfs" ∧ remote ≠ none then
    .error .valueError
  else if remote = some "s3" then
    if bucket_name ≠ none ∧ bucket_name ≠ some "" then
      .ok ⟨remote, bucket_name, none, none, none⟩
    else
      .error .valueError
  else
    .ok ⟨remote, none, none, none, none⟩

/-- `Filly.__set_path(filepath, filename, fullpath)` (filly.py lines
69-79), statement for statement: first, if `fullpath` is given, all
three attributes are assigned from it; then, if `filename` is given it
overwrites the name, and if `filepath` is also given the directory and
the full path are overwritten from the pair. -/
def setPath (st : FillyState) (filepath filename fullpath : Option String) :
    FillyState :=
  let st1 :=
    match fullpath with
    | some fp =>
      { st with fullpath := some fp, filepath := some (dirname fp),
                filename := some (basename fp) }
    | none => st
  match filename with
  | some fn =>
    let st2 := { st1 with filename := some fn }
    match filepath with
    | some d => { st2 with filepath := some d, fullpath := some (joinPath d fn) }
    | none => st2
  | none => st1

/-! ## Observable side effects -/

/-- The filesystem and remote side effects the orchestrator performs,
in program order.  `makedirs` is `os.makedirs(dir, exist_ok=True)`
(recursive, and it never fails when the directory already exists);
`fileWrite`/`fileRead` are the codec handlers opening the resolved full
path; `s3Put`/`s3Get` are the S3 client transfers; `hdfsCmd` is a shelled
`hdfs dfs` command. -/
inductive Effect where
  | makedirs (dir : String)
  | fileWrite (path : String)
  | fileRead (path : String)
  | s3Put (localDir remoteDir name : String)
  | s3Get (remoteDir localDir name : String)
  | hdfsCmd (args : List String)
  deriving Repr, DecidableEq

/-- Whether an effect touches the remote backend (network or
subprocess) rather than the local filesystem. -/
def Effect.isRemote : Effect → Bool
  | .s3Put _ _ _ => true
  | .s3Get _ _ _ => true
  | .hdfsCmd _ => true
  | _ => false

/-- The access mode of `Filly._read_or_write`. -/
inductive Mode where
  | r
  | w
  deriving Repr, DecidableEq

/-- `Filly._read_or_write(mode, data)` (filly.py lines 154-181):
computes `Path(self.filename).suffix` and dispatches on it — `.json`,
`.csv`, `.pkl`/`.pickle` go to a handler that opens `self.fullpath`,
anything else raises `TypeError`.  Reading `self.filename` (or, inside
a handler, `self.fullpath`) when unassigned raises `AttributeError`. -/
def readOrWrite (st : FillyState) (mode : Mode) : List Effect × Option PyErr :=
  match st.filename with
  | none => ([], some .attributeError)
  | some name =>
    let ext := pySuffix name
    if ext = ".json" ∨ ext = ".csv" ∨ ext = ".pkl" ∨ ext = ".pickle" then
      match st.fullpath with
      | none => ([], some .attributeError)
      | some fp =>
        match mode with
        | .w => ([Effect.fileWrite fp], none)
        | .r => ([Effect.fileRead fp], none)
    else
      ([], some .typeError)

/-- `Filly.write_data(data, filepath, filename, fullpath)` (filly.py
lines 91-107): resolve the path, create the directory if absent
(`os.makedirs(..., exist_ok=True)` behind an existence check), write
through the codec, then store remotely — `hdfs` evaluates the undefined
name `hdfs_dir` and so raises `NameError`; `s3` calls
`put_to_s3(self.filepath, self.filepath, self.filename)`; `None`
passes; any other remote raises `ValueError`.  Returns the effect trace
in program order and the exception, if one is raised.  `writeBody` is
the body after the `__set_path` call, over the already-resolved state
`stt`; `write_data` composes it with the resolution. -/
def writeBody (stt : FillyState) (pathExists : String → Bool) :
    List Effect × Option PyErr :=
  match stt.filepath with
  | none => ([], some .attributeError)
  | some dir =>
    let mkEffs := if pathExists dir then [] else [Effect.makedirs dir]
    match readOrWrite stt .w with
    | (wEffs, some e) => (mkEffs ++ wEffs, some e)
    | (wEffs, none) =>
      match stt.remote with
      | none => (mkEffs ++ wEffs, none)
      | some r =>
        if r = "hdfs" then
          (mkEffs ++ wEffs, some .nameError)
        else if r = "s3" then
          match stt.filename with
          | some n => (mkEffs ++ wEffs ++ [Effect.s3Put dir dir n], none)
          | none => (mkEffs ++ wEffs, some .attributeError)
        else
          (mkEffs ++ wEffs, some .valueError)

def write_data (st : FillyState) (pathExists : String → Bool)
    (filepath filename fullpath : Option String) :
    List Effect × Option PyErr :=
  writeBody (setPath st filepath filename fullpath) pathExists

/-- `Filly.read_data(filepath, filename, fullpath, download)` (filly.py
lines 109-122): resolve the path; if `download`, fetch from the remote —
`hdfs` evaluates the undefined name `hdfs_dir` and raises `NameError`
before anything else, `s3` calls `get_from_s3(self.filepath,
self.filepath, self.filename)`, and every other remote (including
`None`) passes; then read through the codec.  `readBody` is the body
after the `__set_path` call, over the already-resolved state `stt`;
`read_data` composes it with the resolution. -/
def readBody (stt : FillyState) (download : Bool) : List Effect × Option PyErr :=
  let dl : List Effect × Option PyErr :=
    if download then
      match stt.remote with
      | some r =>
        if r = "hdfs" then ([], some .nameError)
        else if r = "s3" then
          match stt.filepath, stt.filename with
          | some d, some n => ([Effect.s3Get d d n], none)
          | _, _ => ([], some .attributeError)
        else ([], none)
      | none => ([], none)
    else ([], none)
  match dl with
  | (dlEffs, some e) => (dlEffs, some e)
  | (dlEffs, none) =>
    match readOrWrite stt .r with
    | (rEffs, err) => (dlEffs ++ rEffs, err)

def read_data (st : FillyState) (filepath filename fullpath : Option String)
    (download : Bool) : List Effect × Option PyErr :=
  readBody (setPath st filepath filename fullpath) download

/-! ## The HDFS helper -/

/-- The outcome of one shelled command: `(returncode, stdout, stderr)`
as produced by `Filly.__run_cmd`. -/
structure CmdResult where
  ret : Int
  out : String
  err : String

/-- The `hdfs dfs -test -e` command issued by `_upload_to_hdfs`. -/
def testCmd (hdfsDir : String) : List String :=
  ["hdfs", "dfs", "-test", "-e", hdfsDir]

/-- The `hdfs dfs -rm` command issued by `_upload_to_hdfs`. -/
def rmCmd (hdfsDir : String) : List String :=
  ["hdfs", "dfs", "-rm", hdfsDir]

/-- The `hdfs dfs -copyFromLocal` command issued by `_upload_to_hdfs`. -/
def copyCmd (fullpath hdfsDir : String) : List String :=
  ["hdfs", "dfs", "-copyFromLocal", fullpath, hdfsDir]

/-- `Filly._upload_to_hdfs(hdfs_dir)` (filly.py lines 125-138), with the
shell modelled as a function `run` from the argument list to the
command's outcome.  The body runs `-test -e`; if its return code is `0`
(`if not ret:`) it runs `-rm`; it then always runs `-copyFromLocal`,
and only logs: an error line when the copy's stderr is non-empty, a
success line otherwise.  The body contains no `raise`, so the embedded
result's exception component is `none` on every path.  Returns the
commands issued in order, the exception, and whether an error line was
logged. -/
def upload_to_hdfs (run : List String → CmdResult) (fullpath hdfsDir : String) :
    List (List String) × Option PyErr × Bool :=
  let r1 := run (testCmd hdfsDir)
  let pre :=
    if r1.ret = 0 then [testCmd hdfsDir, rmCmd hdfsDir]
    else [testCmd hdfsDir]
  let r3 := run (copyCmd fullpath hdfsDir)
  (pre ++ [copyCmd fullpath hdfsDir], none, if r3.err = "" then false else true)

end Filly

namespace S3

open Filly (PyErr)

/-- One response of `list_objects_v2`: the optional `Contents` key list
(absent when the prefix holds no objects) and the optional
`NextContinuationToken`. -/
structure Page where
  contents : Option (List String)
  nextToken : Option String
  deriving Repr, DecidableEq

/-- The `while next_token is not None` loop of
`S3.get_blob_references_from_s3` (s3.py lines 41-49) run against a
backend that answers the successive `list_objects_v2` calls with the
pages of the given list: each iteration appends
`[content.get('Key') for content in contents]` to the accumulator —
which raises `TypeError` when `Contents` was absent, because `contents`
is then `None` — and continues while `NextContinuationToken` is
present. -/
def listLoop : List Page → List String → Except PyErr (List String)
  | [], keys => .ok keys
  | p :: rest, keys =>
    match p.contents with
    | none => .error .typeError
    | some ks =>
      match p.nextToken with
      | none => .ok (keys ++ ks)
      | some _ => listLoop rest (keys ++ ks)

/-- `S3.get_blob_references_from_s3(remote_dir)` (s3.py lines 28-51):
`next_token` starts as `''`, so the loop always issues at least one
request, then follows the continuation token. -/
def get_blob_references_from_s3 (pages : List Page) : Except PyErr (List String) :=
  listLoop pages []

/-- `S3.get_all_from_s3(remote_dir)` (s3.py lines 53-74).  Its first
statement is `blobs = self.get_blob_references_from_s3(self.bucket,
remote_dir)`: two positional arguments passed to a method declared as
`get_blob_references_from_s3(self, remote_dir)`, so Python raises
`TypeError: get_blob_references_from_s3() takes 2 positional arguments
but 3 were given` before any listing, directory creation or download is
attempted.  The download loop below that line is unreachable. -/
def get_all_from_s3 (bucket remote_dir : String) :
    List Filly.Effect × Option PyErr :=
  ([], some .typeError)

end S3

/-! ## Helper lemmas -/

namespace Filly

/-- `__set_path` never touches the `remote` attribute. -/
theorem setPath_remote (st : FillyState) (fp fn full : Option String) :
    (setPath st fp fn full).remote = st.remote := by
  unfold setPath
  cases full <;> cases fn <;> cases fp <;> rfl

/-- When both a directory and a name are passed, `__set_path` resolves
the triple from that pair, whatever the `fullpath` argument: the second
block of the method overwrites whatever the first block assigned. -/
theorem setPath_dir_name (st : FillyState) (d n : String) (full : Option String) :
    setPath st (some d) (some n) full =
      { st with filepath := some d, filename := some n,
                fullpath := some (joinPath d n) } := by
  cases full <;> rfl

/-- `_read_or_write` performs no remote effect. -/
theorem readOrWrite_effects_local (st : FillyState) (m : Mode) :
    ∀ e ∈ (readOrWrite st m).1, e.isRemote = false := by
  cases hname : st.filename with
  | none => simp [readOrWrite, hname]
  | some name =>
    by_cases hcond : (pySuffix name = ".json" ∨ pySuffix name = ".csv" ∨
        pySuffix name = ".pkl" ∨ pySuffix name = ".pickle")
    · cases hfp : st.fullpath with
      | none => simp [readOrWrite, hname, hfp, hcond]
      | some fp =>
        cases m <;> simp [readOrWrite, hname, hfp, hcond, Effect.isRemote]
    · simp [readOrWrite, hname, hcond]

/-- When `_read_or_write` raises, it has touched no file. -/
theorem readOrWrite_err_effects (st : FillyState) (m : Mode) (e : PyErr)
    (h : (readOrWrite st m).2 = some e) : (readOrWrite st m).1 = [] := by
  cases hname : st.filename with
  | none => simp [readOrWrite, hname]
  | some name =>
    by_cases hcond : (pySuffix name = ".json" ∨ pySuffix name = ".csv" ∨
        pySuffix name = ".pkl" ∨ pySuffix name = ".pickle")
    · cases hfp : st.fullpath with
      | none => simp [readOrWrite, hname, hfp, hcond]
      | some fp =>
        cases m <;> simp [readOrWrite, hname, hfp, hcond] at h
    · simp [readOrWrite, hname, hcond]

/-- When a codec write succeeds, its trace is exactly one file write at
the resolved full path, and the name attribute is assigned. -/
theorem readOrWrite_w_ok (st : FillyState)
    (h : (readOrWrite st .w).2 = none) :
    ∃ n p, st.filename = some n ∧ st.fullpath = some p ∧
      (readOrWrite st .w).1 = [Effect.fileWrite p] := by
  cases hname : st.filename with
  | none => simp [readOrWrite, hname] at h
  | some name =>
    by_cases hcond : (pySuffix name = ".json" ∨ pySuffix name = ".csv" ∨
        pySuffix name = ".pkl" ∨ pySuffix name = ".pickle")
    · cases hfp : st.fullpath with
      | none => simp [readOrWrite, hname, hfp, hcond] at h
      | some fp =>
        refine ⟨name, fp, rfl, rfl, ?_⟩
        simp [readOrWrite, hname, hfp, hcond]
    · simp [readOrWrite, hname, hcond] at h

/-- Decomposition of the write body: its trace is a local prefix (the
optional directory creation and the codec write) followed by a remote
suffix; the remote suffix is non-empty only when the codec write
succeeded, and it is empty when no remote is configured. -/
theorem writeBody_decomp (stt : FillyState) (pathExists : String → Bool) :
    ∃ loc rem err,
      writeBody stt pathExists = (loc ++ rem, err) ∧
      (∀ e ∈ loc, e.isRemote = false) ∧
      (∀ e ∈ rem, e.isRemote = true) ∧
      (rem ≠ [] → ∃ p, Effect.fileWrite p ∈ loc) ∧
      (stt.remote = none → rem = []) := by
  cases hfp : stt.filepath with
  | none =>
    exact ⟨[], [], some .attributeError, by simp [writeBody, hfp], by simp,
      by simp, by simp, fun _ => rfl⟩
  | some dir =>
    have hmk : ∀ e ∈ (if pathExists dir then ([] : List Effect)
        else [Effect.makedirs dir]), e.isRemote = false := by
      split <;> simp [Effect.isRemote]
    cases hw : readOrWrite stt .w with
    | mk wEffs wErr =>
      have hwloc : ∀ e ∈ wEffs, e.isRemote = false := by
        have h := readOrWrite_effects_local stt .w
        rw [hw] at h
        exact h
      have hloc : ∀ e ∈ (if pathExists dir then ([] : List Effect)
          else [Effect.makedirs dir]) ++ wEffs, e.isRemote = false := by
        intro x hx
        rcases List.mem_append.mp hx with h | h
        · exact hmk x h
        · exact hwloc x h
      cases wErr with
      | some e =>
        exact ⟨_ ++ wEffs, [], some e, by simp [writeBody, hfp, hw], hloc,
          by simp, by simp, fun _ => rfl⟩
      | none =>
        obtain ⟨n, p, hn, hp, hes⟩ := readOrWrite_w_ok stt (by rw [hw])
        rw [hw] at hes
        cases hr : stt.remote with
        | none =>
          exact ⟨_ ++ wEffs, [], none, by simp [writeBody, hfp, hw, hr], hloc,
            by simp, by simp, fun _ => rfl⟩
        | some r =>
          by_cases hr1 : r = "hdfs"
          · exact ⟨_ ++ wEffs, [], some .nameError,
              by simp [writeBody, hfp, hw, hr, hr1], hloc, by simp, by simp,
              fun _ => rfl⟩
          · by_cases hr2 : r = "s3"
            · refine ⟨_ ++ wEffs, [Effect.s3Put dir dir n], none, ?_, hloc,
                by simp [Effect.isRemote], ?_, ?_⟩
              · simp [writeBody, hfp, hw, hr, hr1, hr2, hn, List.append_assoc]
              · have hes2 : wEffs = [Effect.fileWrite p] := hes
                exact fun _ => ⟨p, by simp [hes2]⟩
              · exact fun habs => absurd habs (by simp)
            · exact ⟨_ ++ wEffs, [], some .valueError,
                by simp [writeBody, hfp, hw, hr, hr1, hr2], hloc, by simp,
                by simp, fun _ => rfl⟩

/-- On a state whose remote is `hdfs`, the write body always raises:
either the local phase raises first, or the remote branch evaluates the
undefined name `hdfs_dir` and raises `NameError`; no remote effect is
ever performed. -/
theorem writeBody_hdfs (stt : FillyState) (pathExists : String → Bool)
    (hr : stt.remote = some "hdfs") :
    (writeBody stt pathExists).2.isSome = true ∧
    (∀ e ∈ (writeBody stt pathExists).1, e.isRemote = false) ∧
    ((∃ p, Effect.fileWrite p ∈ (writeBody stt pathExists).1) →
      (writeBody stt pathExists).2 = some .nameError) := by
  cases hfp : stt.filepath with
  | none =>
    refine ⟨by simp [writeBody, hfp], by simp [writeBody, hfp], ?_⟩
    rintro ⟨p, hp⟩
    simp [writeBody, hfp] at hp
  | some dir =>
    have hmk : ∀ e ∈ (if pathExists dir then ([] : List Effect)
        else [Effect.makedirs dir]), e.isRemote = false := by
      split <;> simp [Effect.isRemote]
    cases hw : readOrWrite stt .w with
    | mk wEffs wErr =>
      have hwloc : ∀ e ∈ wEffs, e.isRemote = false := by
        have h := readOrWrite_effects_local stt .w
        rw [hw] at h
        exact h
      have hloc : ∀ e ∈ (if pathExists dir then ([] : List Effect)
          else [Effect.makedirs dir]) ++ wEffs, e.isRemote = false := by
        intro x hx
        rcases List.mem_append.mp hx with h | h
        · exact hmk x h
        · exact hwloc x h
      cases wErr with
      | some e =>
        have hnil : wEffs = [] := by
          have h := readOrWrite_err_effects stt .w e (by rw [hw])
          rw [hw] at h
          exact h
        refine ⟨by simp [writeBody, hfp, hw], by simpa [writeBody, hfp, hw] using hloc, ?_⟩
        rintro ⟨p, hp⟩
        simp [writeBody, hfp, hw, hnil] at hp
      | none =>
        refine ⟨by simp [writeBody, hfp, hw, hr], by simpa [writeBody, hfp, hw, hr] using hloc,
          fun _ => by simp [writeBody, hfp, hw, hr]⟩

end Filly

/-! ## Claims -/

/-- C1 (counterexample): resolving with directory `"a"`, name
`"b.json"` and full path `"c/d.json"` does NOT yield full path
`"c/d.json"`: the directory/name block of `__set_path` runs after the
full-path block and overwrites all three attributes, so the resolved
full path is `"a/b.json"`. -/
theorem setPath_fullpath_does_not_win :
    (Filly.setPath ⟨none, none, none, none, none⟩ (some "a") (some "b.json")
        (some "c/d.json")).fullpath = some "a/b.json" ∧
    (Filly.setPath ⟨none, none, none, none, none⟩ (some "a") (some "b.json")
        (some "c/d.json")).fullpath ≠ some "c/d.json" := by
  constructor
  · rfl
  · decide

/-- C1 (amended): when `callFullPath` is supplied along with
`callDirectory` and `callName`, the resolved triple is taken from the
directory/name pair — directory = callDirectory, name = callName,
fullPath = join(callDirectory, callName) — because the second block of
`__set_path` overwrites the assignments made from `callFullPath`; in
particular, resolving with directory="a", name="b.json",
fullPath="c/d.json" yields fullPath="a/b.json". -/
theorem setPath_dir_name_wins (st : Filly.FillyState) (d n f : String) :
    Filly.setPath st (some d) (some n) (some f) =
      { st with filepath := some d, filename := some n,
                fullpath := some (Filly.joinPath d n) } :=
  Filly.setPath_dir_name st d n (some f)

/-- C7 (counterexample): on a session holding prior path state
(directory `"x"`, name `"y.json"`, full path `"x/y.json"`), resolving
with only `callName = "b.json"` leaves `fullpath` assigned — still
`"x/y.json"`, the previously resolved path — and a subsequent
`read_data` with `download=False` succeeds and reads `"x/y.json"`, a
different file, rather than failing at use time. -/
theorem setPath_name_only_stale :
    (Filly.setPath ⟨none, none, some "x", some "y.json", some "x/y.json"⟩
        none (some "b.json") none).fullpath = some "x/y.json" ∧
    Filly.read_data ⟨none, none, some "x", some "y.json", some "x/y.json"⟩
        none (some "b.json") none false
      = ([Filly.Effect.fileRead "x/y.json"], none) := by
  constructor
  · rfl
  · rfl

/-- C7 (amended): when `callName` is given but `callDirectory` and
`callFullPath` are not, the name is set to `callName` and the directory
and full path attributes are left unchanged: on a fresh session they
remain unassigned, so using the resolved location raises
`AttributeError` at use time, but on a session with prior state the
previously resolved full path is silently reused. -/
theorem setPath_name_only (st : Filly.FillyState) (n : String) :
    Filly.setPath st none (some n) none = { st with filename := some n } ∧
    (Filly.write_data ⟨none, none, none, none, none⟩ (fun _ => false)
        none (some n) none) = ([], some .attributeError) := by
  constructor
  · rfl
  · rfl

/-- C8 (code bug): `get_all_from_s3` passes two positional arguments to
the one-argument method `get_blob_references_from_s3`, so every call
raises `TypeError` before performing any listing, directory creation or
download — no key is ever downloaded. -/
theorem get_all_from_s3_always_raises (bucket remote_dir : String) :
    S3.get_all_from_s3 bucket remote_dir = ([], some .typeError) := rfl

/-- C10: when the first listing page carries no `Contents` key list,
`get_blob_references_from_s3` raises `TypeError` (iterating over
`None`) instead of returning an empty key sequence. -/
theorem listing_empty_prefix_raises (tok : Option String) (rest : List S3.Page) :
    S3.get_blob_references_from_s3 (⟨none, tok⟩ :: rest) = .error .typeError := rfl

/-- C2: storing to a distributed-filesystem path that already exists
(the `-test -e` probe exits 0) issues exactly the sequence exists-check,
delete, copy-from-local; when the copy step fails (non-zero exit or
non-empty stderr) the failure is at most logged — the call raises no
exception (the embedded exception component is `none`) and the error
log line appears exactly when the copy's stderr is non-empty. -/
theorem upload_to_hdfs_replace (run : List String → Filly.CmdResult)
    (fullpath hdfsDir : String)
    (hExists : (run (Filly.testCmd hdfsDir)).ret = 0)
    (hCopyFails : (run (Filly.copyCmd fullpath hdfsDir)).ret ≠ 0 ∨
      (run (Filly.copyCmd fullpath hdfsDir)).err ≠ "") :
    Filly.upload_to_hdfs run fullpath hdfsDir =
      ([Filly.testCmd hdfsDir, Filly.rmCmd hdfsDir, Filly.copyCmd fullpath hdfsDir],
       none,
       if (run (Filly.copyCmd fullpath hdfsDir)).err = "" then false else true) := by
  simp [Filly.upload_to_hdfs, hExists]

/-- A shell oracle for the C2 witness: the remote file exists and the
copy-from-local step fails with a non-empty error stream. -/
def runCopyFails : List String → Filly.CmdResult := fun args =>
  if args = Filly.testCmd "/remote/p" then ⟨0, "", ""⟩ else ⟨1, "", "boom"⟩

/-- Witness for C2 at a concrete shell oracle. -/
theorem upload_to_hdfs_replace_witness :
    Filly.upload_to_hdfs runCopyFails "/tmp/f.json" "/remote/p" =
      ([Filly.testCmd "/remote/p", Filly.rmCmd "/remote/p",
        Filly.copyCmd "/tmp/f.json" "/remote/p"], none, true) := by
  have h := upload_to_hdfs_replace runCopyFails "/tmp/f.json" "/remote/p"
    (by decide) (by decide)
  rw [h]
  decide

/-- C4: session construction fails with `ValueError` when the remote is
not one of `s3`, `hdfs`, `None`; it fails with `ValueError` when the
`s3` remote is selected with the bucket name absent or empty; and it
succeeds with the `s3` remote and a non-empty bucket name. -/
theorem init_configuration :
    (∀ r b : Option String, r ≠ some "s3" → r ≠ some "hdfs" → r ≠ none →
      Filly.init r b = .error .valueError) ∧
    Filly.init (some "s3") none = .error .valueError ∧
    Filly.init (some "s3") (some "") = .error .valueError ∧
    (∀ b : String, b ≠ "" →
      Filly.init (some "s3") (some b) = .ok ⟨some "s3", some b, none, none, none⟩) := by
  refine ⟨fun r b h1 h2 h3 => ?_, rfl, rfl, fun b hb => ?_⟩
  · rw [Filly.init, if_pos ⟨h1, h2, h3⟩]
  · rw [Filly.init, if_neg (by simp), if_pos rfl, if_pos (by simp [hb])]

/-- Witness for C4: a rejected remote kind and an accepted bucket. -/
theorem init_configuration_witness :
    Filly.init (some "gcs") none = .error .valueError ∧
    Filly.init (some "s3") (some "models") =
      .ok ⟨some "s3", some "models", none, none, none⟩ :=
  ⟨init_configuration.1 (some "gcs") none (by decide) (by decide) (by decide),
   init_configuration.2.2.2 "models" (by decide)⟩

/-- The pagination loop appends each taken page's keys to the
accumulator in order, for any backend run whose intermediate pages all
carry a key list and a continuation token and whose final page carries
a key list and no token. -/
theorem listLoop_ok (ps : List S3.Page) (last : S3.Page) (acc : List String)
    (hps : ∀ p ∈ ps, p.contents ≠ none ∧ p.nextToken ≠ none)
    (hlastC : last.contents ≠ none) (hlastT : last.nextToken = none) :
    S3.listLoop (ps ++ [last]) acc =
      .ok (acc ++ ((ps ++ [last]).map (fun p => p.contents.getD [])).flatten) := by
  induction ps generalizing acc with
  | nil =>
    cases hks : last.contents with
    | none => exact absurd hks hlastC
    | some ks => simp [S3.listLoop, hks, hlastT]
  | cons p ps ih =>
    obtain ⟨pc, pt⟩ := p
    obtain ⟨hc, ht⟩ := hps ⟨pc, pt⟩ (List.mem_cons_self _ _)
    cases pc with
    | none => exact absurd rfl hc
    | some ks =>
      cases pt with
      | none => exact absurd rfl ht
      | some t =>
        have ih2 := ih (acc ++ ks) (fun q hq => hps q (List.mem_cons_of_mem _ hq))
        calc S3.listLoop ((⟨some ks, some t⟩ : S3.Page) :: (ps ++ [last])) acc
            = S3.listLoop (ps ++ [last]) (acc ++ ks) := rfl
          _ = .ok (acc ++ ks ++
                ((ps ++ [last]).map (fun q => q.contents.getD [])).flatten) := ih2
          _ = .ok (acc ++
                (((⟨some ks, some t⟩ : S3.Page) :: (ps ++ [last])).map
                  (fun q => q.contents.getD [])).flatten) := by
              simp [List.append_assoc]

/-- C5: a paginated object-store listing returns the concatenation of
the keys of each returned page in original page-and-key order, following
the continuation token until the backend returns none. -/
theorem listing_concatenates_pages (ps : List S3.Page) (last : S3.Page)
    (hps : ∀ p ∈ ps, p.contents ≠ none ∧ p.nextToken ≠ none)
    (hlastC : last.contents ≠ none) (hlastT : last.nextToken = none) :
    S3.get_blob_references_from_s3 (ps ++ [last]) =
      .ok (((ps ++ [last]).map (fun p => p.contents.getD [])).flatten) := by
  have h := listLoop_ok ps last [] hps hlastC hlastT
  simpa [S3.get_blob_references_from_s3] using h

/-- Witness for C5: a 3-key page with a token, then a 2-key page with
no token, yields exactly those 5 keys in order. -/
theorem listing_concatenates_pages_witness :
    S3.get_blob_references_from_s3
        [⟨some ["k1", "k2", "k3"], some "t"⟩, ⟨some ["k4", "k5"], none⟩] =
      .ok ["k1", "k2", "k3", "k4", "k5"] := by
  have h := listing_concatenates_pages [⟨some ["k1", "k2", "k3"], some "t"⟩]
    ⟨some ["k4", "k5"], none⟩ (by decide) (by decide) (by decide)
  simpa using h

/-- C3: for every write call, whatever the configured remote target,
the effect trace is a local prefix (directory creation — recursive and
succeeding when the directory already exists, modelled by `makedirs`
with `exist_ok=True` — and the codec write) followed by the remote
part: any remote store is attempted only after the local codec write
happened, and with remote target `None` no remote operation occurs at
all. -/
theorem write_local_before_remote (st : Filly.FillyState)
    (pathExists : String → Bool) (fp fn full : Option String) :
    ∃ loc rem err,
      Filly.write_data st pathExists fp fn full = (loc ++ rem, err) ∧
      (∀ e ∈ loc, e.isRemote = false) ∧
      (∀ e ∈ rem, e.isRemote = true) ∧
      (rem ≠ [] → ∃ p, Filly.Effect.fileWrite p ∈ loc) ∧
      (st.remote = none → rem = []) := by
  obtain ⟨loc, rem, err, h1, h2, h3, h4, h5⟩ :=
    Filly.writeBody_decomp (Filly.setPath st fp fn full) pathExists
  exact ⟨loc, rem, err, h1, h2, h3, h4,
    fun h => h5 ((Filly.setPath_remote st fp fn full).trans h)⟩

/-- C6: for every resolved file name whose extension is not one of
`.json`, `.csv`, `.pkl`, `.pickle`, a write fails with `TypeError`
(the `UnsupportedFormat` of the spec) without writing any file at the
resolved path, and a read fails with the same `TypeError` (on a
non-`hdfs` session, whose reads are not pre-empted by the `NameError`
of C9). -/
theorem unsupported_extension_rejected (st : Filly.FillyState)
    (pathExists : String → Bool) (dir name : String)
    (hext : Filly.pySuffix name ∉ [".json", ".csv", ".pkl", ".pickle"]) :
    (Filly.write_data st pathExists (some dir) (some name) none).2
      = some .typeError ∧
    (∀ p, Filly.Effect.fileWrite p
      ∉ (Filly.write_data st pathExists (some dir) (some name) none).1) ∧
    (st.remote ≠ some "hdfs" →
      (Filly.read_data st (some dir) (some name) none true).2
        = some .typeError) := by
  simp only [List.mem_cons, List.not_mem_nil, or_false, not_or] at hext
  obtain ⟨h1, h2, h3, h4⟩ := hext
  have hst := Filly.setPath_dir_name st dir name none
  have hro : ∀ (rm bk : Option String) (m : Filly.Mode), Filly.readOrWrite
      ⟨rm, bk, some dir, some name, some (Filly.joinPath dir name)⟩ m
      = ([], some .typeError) := by
    intro rm bk m
    simp [Filly.readOrWrite, h1, h2, h3, h4]
  have hwd : Filly.write_data st pathExists (some dir) (some name) none =
      ((if pathExists dir then [] else [Filly.Effect.makedirs dir]),
       some Filly.PyErr.typeError) := by
    simp only [Filly.write_data, hst]
    simp [Filly.writeBody, hro]
  refine ⟨by rw [hwd], ?_, ?_⟩
  · intro p
    rw [hwd]
    by_cases he : pathExists dir <;> simp [he]
  · intro hrm
    simp only [Filly.read_data, hst]
    cases hr : st.remote with
    | none => simp [Filly.readBody, hro, hr]
    | some r =>
      by_cases hs : r = "s3"
      · simp [Filly.readBody, hro, hr, hs]
      · have hh : r ≠ "hdfs" := fun h => hrm (by rw [hr, h])
        simp [Filly.readBody, hro, hr, hs, hh]

/-- Witness for C6 at extension `.parquet`: the write raises
`TypeError`, writes no file, and the read raises `TypeError`. -/
theorem unsupported_extension_rejected_witness :
    (Filly.write_data ⟨none, none, none, none, none⟩ (fun _ => false)
        (some "out") (some "x.parquet") none).2 = some .typeError ∧
    Filly.Effect.fileWrite "out/x.parquet"
      ∉ (Filly.write_data ⟨none, none, none, none, none⟩ (fun _ => false)
          (some "out") (some "x.parquet") none).1 ∧
    (Filly.read_data ⟨none, none, none, none, none⟩
        (some "out") (some "x.parquet") none true).2 = some .typeError :=
  ⟨(unsupported_extension_rejected ⟨none, none, none, none, none⟩ (fun _ => false)
      "out" "x.parquet" (by decide)).1,
   (unsupported_extension_rejected ⟨none, none, none, none, none⟩ (fun _ => false)
      "out" "x.parquet" (by decide)).2.1 "out/x.parquet",
   (unsupported_extension_rejected ⟨none, none, none, none, none⟩ (fun _ => false)
      "out" "x.parquet" (by decide)).2.2 (by decide)⟩

/-- C9: on a session configured with the `hdfs` remote, every write
call raises (and when the local write phase succeeded — a codec write
is in the trace — the exception is precisely the `NameError` from the
undefined `hdfs_dir`), and every read call with `download=True` raises
that `NameError` before doing anything at all; in both cases no remote
command is ever run. -/
theorem hdfs_paths_unreachable (st : Filly.FillyState)
    (pathExists : String → Bool) (fp fn full : Option String)
    (hr : st.remote = some "hdfs") :
    ((Filly.write_data st pathExists fp fn full).2.isSome = true ∧
     (∀ e ∈ (Filly.write_data st pathExists fp fn full).1, e.isRemote = false) ∧
     ((∃ p, Filly.Effect.fileWrite p ∈ (Filly.write_data st pathExists fp fn full).1) →
       (Filly.write_data st pathExists fp fn full).2 = some .nameError)) ∧
    Filly.read_data st fp fn full true = ([], some .nameError) := by
  have hstt : (Filly.setPath st fp fn full).remote = some "hdfs" :=
    (Filly.setPath_remote st fp fn full).trans hr
  refine ⟨Filly.writeBody_hdfs (Filly.setPath st fp fn full) pathExists hstt, ?_⟩
  simp [Filly.read_data, Filly.readBody, hstt]

/-- Witness for C9 on an `hdfs` session at a concrete call: the write
performs only local effects and ends in `NameError`; the read performs
nothing and raises `NameError`. -/
theorem hdfs_paths_unreachable_witness :
    (Filly.write_data ⟨some "hdfs", none, none, none, none⟩ (fun _ => false)
        (some "d") (some "a.json") none).2 = some .nameError ∧
    Filly.read_data ⟨some "hdfs", none, none, none, none⟩
        (some "d") (some "a.json") none true = ([], some .nameError) :=
  ⟨(hdfs_paths_unreachable ⟨some "hdfs", none, none, none, none⟩ (fun _ => false)
      (some "d") (some "a.json") none (by decide)).1.2.2 ⟨"d/a.json", by decide⟩,
   (hdfs_paths_unreachable ⟨some "hdfs", none, none, none, none⟩ (fun _ => false)
      (some "d") (some "a.json") none (by decide)).2⟩
